import Mathlib

/-!
Verification of the DebateSimulator backend core (src/backend/debate_logic.py,
src/backend/llms_logic.py, src/backend/main.py) against its natural-language
specification.  The Python code is shallowly embedded: classes become
structures, methods become pure functions with explicit state passing, dict
accesses that can raise `KeyError` return `Except`, and the external
language-model calls (an external collaborator per the spec) are modelled as
`Except`-valued oracles supplied by the caller.
-/

namespace DebateSim

/-- Substring test on character lists (Python's `needle in haystack`). -/
def listStartsWith : List Char → List Char → Bool
  | [], _ => true
  | _ :: _, [] => false
  | a :: as, b :: bs => a == b && listStartsWith as bs

/-- `containsSub needle hay` is Python's `needle in hay` for strings. -/
def containsSub (needle : List Char) : List Char → Bool
  | [] => listStartsWith needle []
  | l@(_ :: rest) => listStartsWith needle l || containsSub needle rest

/-- Python's `str.lower()` (ASCII, as used throughout the source). -/
def pyToLower (s : String) : String := String.mk (s.data.map Char.toLower)

/-- Python's `str.strip()`. -/
def pyStrip (s : String) : String :=
  String.mk (((s.data.dropWhile Char.isWhitespace).reverse.dropWhile
    Char.isWhitespace).reverse)

/-- Python's `str.replace("_", " ")` (single-character pattern). -/
def pyReplaceUnderscores (s : String) : String :=
  String.mk (s.data.map (fun c => if c = '_' then ' ' else c))

/-- Python's `str.capitalize()`: first char uppercased, rest lowercased. -/
def pyCapitalize (s : String) : String :=
  match s.toList with
  | [] => ""
  | c :: rest => String.mk (c.toUpper :: rest.map Char.toLower)

/-- `debate_logic.py` lines 3-15: the `DebatePhase` enum. -/
inductive DebatePhase where
  | PRO_CONSTRUCTIVE
  | CON_CONSTRUCTIVE
  | CROSSFIRE_1_QA
  | PRO_REBUTTAL
  | CON_REBUTTAL
  | CROSSFIRE_2_QA
  | PRO_SUMMARY
  | CON_SUMMARY
  | FINAL_FOCUS_PRO
  | FINAL_FOCUS_CON
  | JUDGING_PHASE
  | COMPLETED
  deriving Repr, DecidableEq, Inhabited

/-- The Python enum member's `.name` attribute. -/
def DebatePhase.name : DebatePhase → String
  | .PRO_CONSTRUCTIVE => "PRO_CONSTRUCTIVE"
  | .CON_CONSTRUCTIVE => "CON_CONSTRUCTIVE"
  | .CROSSFIRE_1_QA => "CROSSFIRE_1_QA"
  | .PRO_REBUTTAL => "PRO_REBUTTAL"
  | .CON_REBUTTAL => "CON_REBUTTAL"
  | .CROSSFIRE_2_QA => "CROSSFIRE_2_QA"
  | .PRO_SUMMARY => "PRO_SUMMARY"
  | .CON_SUMMARY => "CON_SUMMARY"
  | .FINAL_FOCUS_PRO => "FINAL_FOCUS_PRO"
  | .FINAL_FOCUS_CON => "FINAL_FOCUS_CON"
  | .JUDGING_PHASE => "JUDGING_PHASE"
  | .COMPLETED => "COMPLETED"

/-- One element of `DebateState.transcript` as produced by `log_speech`
(`debate_logic.py` lines 93-99): a dict with all four keys present. -/
structure Entry where
  speaker : String
  role : String
  speech_type : String
  content : String
  deriving Repr, DecidableEq

/-- `debate_logic.py` lines 28-41: the phase order when `user_role == "pro"`. -/
def pro_phase_order : List DebatePhase :=
  [.PRO_CONSTRUCTIVE, .CON_CONSTRUCTIVE, .CROSSFIRE_1_QA, .PRO_REBUTTAL,
   .CON_REBUTTAL, .CROSSFIRE_2_QA, .PRO_SUMMARY, .CON_SUMMARY,
   .FINAL_FOCUS_PRO, .FINAL_FOCUS_CON, .JUDGING_PHASE, .COMPLETED]

/-- `debate_logic.py` lines 41-54: the phase order otherwise. -/
def con_phase_order : List DebatePhase :=
  [.CON_CONSTRUCTIVE, .PRO_CONSTRUCTIVE, .CROSSFIRE_1_QA, .CON_REBUTTAL,
   .PRO_REBUTTAL, .CROSSFIRE_2_QA, .CON_SUMMARY, .PRO_SUMMARY,
   .FINAL_FOCUS_CON, .FINAL_FOCUS_PRO, .JUDGING_PHASE, .COMPLETED]

/-- The mutable state of `debate_logic.DebateState`. -/
structure DebateState where
  resolution : String
  user_role : String
  ai_role : String
  ai_difficulty : String
  mode : String
  turn_number : Nat
  transcript : List Entry
  phase_order : List DebatePhase
  current_phase : DebatePhase
  current_speaker : String
  deriving Repr, DecidableEq

/-- `debate_logic.py` lines 83-88: `get_role_from_phase` (returns `None`
when the phase name mentions neither side). -/
def get_role_from_phase (phase : DebatePhase) : Option String :=
  if containsSub "PRO".toList phase.name.toList then some "pro"
  else if containsSub "CON".toList phase.name.toList then some "con"
  else none

/-- `debate_logic.py` lines 90-91 generalised to a phase argument:
`"CROSSFIRE" in phase.name`. -/
def phase_is_crossfire (phase : DebatePhase) : Bool :=
  containsSub "CROSSFIRE".toList phase.name.toList

def DebateState.is_crossfire_phase (s : DebateState) : Bool :=
  phase_is_crossfire s.current_phase

/-- `debate_logic.py` lines 18-57: `DebateState.__init__`. -/
def DebateState.init (resolution user_role ai_difficulty : String)
    (mode : String := "user-vs-ai") : DebateState :=
  let ur := pyToLower user_role
  let order := if ur = "pro" then pro_phase_order else con_phase_order
  let phase0 := order.headD .COMPLETED
  { resolution := resolution
    user_role := ur
    ai_role := if ur = "pro" then "con" else "pro"
    ai_difficulty := pyToLower ai_difficulty
    mode := mode
    turn_number := 1
    transcript := []
    phase_order := order
    current_phase := phase0
    current_speaker :=
      if get_role_from_phase phase0 = some ur then "user" else "ai" }

/-- `debate_logic.py` lines 69-81: `_set_speaker_by_phase`. -/
def DebateState.set_speaker_by_phase (s : DebateState) : DebateState :=
  let phase := s.current_phase
  if phase ∈ [DebatePhase.PRO_CONSTRUCTIVE, .PRO_REBUTTAL, .PRO_SUMMARY,
      .FINAL_FOCUS_PRO] then
    { s with current_speaker := if s.user_role = "pro" then "user" else "ai" }
  else if phase ∈ [DebatePhase.CON_CONSTRUCTIVE, .CON_REBUTTAL, .CON_SUMMARY,
      .FINAL_FOCUS_CON] then
    { s with current_speaker := if s.user_role = "con" then "user" else "ai" }
  else if s.is_crossfire_phase then
    { s with current_speaker := if s.current_speaker = "ai" then "user" else "ai" }
  else if phase = .JUDGING_PHASE then
    { s with current_speaker := "ai" }
  else s

/-- `debate_logic.py` lines 59-67: `advance_phase`.  Both phase orders
contain every phase, so Python's `list.index` never raises here; we use
`indexOf` (and an in-range `getD`) accordingly. -/
def DebateState.advance_phase (s : DebateState) : DebateState :=
  let index := s.phase_order.indexOf s.current_phase
  if index + 1 < s.phase_order.length then
    DebateState.set_speaker_by_phase
      { s with current_phase := s.phase_order.getD (index + 1) .COMPLETED
               turn_number := 1 }
  else
    { s with current_phase := .COMPLETED }

/-- `debate_logic.py` lines 93-99: `log_speech` (appends; capitalizes role). -/
def DebateState.log_speech (s : DebateState)
    (speaker role speech_type content : String) : DebateState :=
  { s with transcript := s.transcript ++
      [{ speaker := speaker, role := pyCapitalize role,
         speech_type := speech_type, content := content }] }

/-- `debate_logic.py` lines 101-115: `get_expected_speech_type`. -/
def DebateState.get_expected_speech_type (s : DebateState) : String :=
  let phase := pyToLower s.current_phase.name
  if containsSub "crossfire".toList phase.toList then "Crossfire"
  else if containsSub "rebuttal".toList phase.toList then "Rebuttal"
  else if containsSub "summary".toList phase.toList then "Summary"
  else if containsSub "final_focus".toList phase.toList then "Final Focus"
  else if containsSub "constructive".toList phase.toList then "Constructive"
  else "Speech"

/-- `debate_logic.py` lines 117-118: `is_ai_turn`. -/
def DebateState.is_ai_turn (s : DebateState) : Bool :=
  s.current_speaker == "ai"

/-! ### `llms_logic.py`: context-window builder and call orchestration -/

/-- A role-tagged message sent to the language model. -/
structure Msg where
  role : String
  content : String
  deriving Repr, DecidableEq

def spaceChar : Char := ' '

/-- Index of the last space in a character list (Python `str.rfind(' ')`,
`none` standing for `-1`). -/
def pyRfindSpace : List Char → Option Nat
  | [] => none
  | c :: rest =>
    match pyRfindSpace rest with
    | some i => some (i + 1)
    | none => if c = spaceChar then some 0 else none

/-- `llms_logic.py` lines 133-138: the inner `summarize` helper, on
character lists (Python slicing is by characters). -/
def summarizeL (text : List Char) (maxLength : Nat) : List Char :=
  if maxLength < text.length then
    let short := text.take maxLength
    match pyRfindSpace short with
    | some last_space => short.take last_space ++ "...".toList
    | none => short ++ "...".toList
  else text

/-- `summarize` on strings (default `max_length=150` as in the source). -/
def summarize (text : String) (maxLength : Nat := 150) : String :=
  String.mk (summarizeL text.toList maxLength)

/-- An element of the `context` list in the crossfire branch of
`build_messages` (lines 140-156).  Transcript entries carry all keys; the
synthetic entry built at lines 152-155 has only `speaker` and `content`,
so `role` and `speech_type` are `Option`s (a `none` read is a `KeyError`). -/
structure CtxEntry where
  speaker : String
  role : Option String
  speech_type : Option String
  content : String
  deriving Repr, DecidableEq

def Entry.toCtx (e : Entry) : CtxEntry :=
  { speaker := e.speaker, role := some e.role,
    speech_type := some e.speech_type, content := e.content }

/-- Python dict access `entry["speech_type"]` on a context entry. -/
def keyGetSpeechType (e : CtxEntry) : Except String String :=
  match e.speech_type with
  | some v => .ok v
  | none => .error "KeyError: speech_type"

/-- `"crossfire" in st.lower()` etc. -/
def cfSubB (st : String) : Bool :=
  containsSub "crossfire".toList (pyToLower st).toList

def constructiveSubB (st : String) : Bool :=
  containsSub "constructive".toList (pyToLower st).toList

def rebuttalSubB (st : String) : Bool :=
  containsSub "rebuttal".toList (pyToLower st).toList

/-- `llms_logic.py` lines 141-156: the crossfire collection loop.  The
first argument is the transcript scanned newest-first
(`reversed(debate_state.transcript)`); `ctx` is the `context` list built
so far (`insert(0, ...)` keeps it in chronological order). -/
def collect_crossfire : List Entry → List CtxEntry → List CtxEntry
  | [], ctx => ctx
  | e :: rest, ctx =>
    if cfSubB e.speech_type then
      let ctx' := e.toCtx :: ctx
      if 4 ≤ ctx'.length then ctx' else collect_crossfire rest ctx'
    else if ctx.isEmpty && (constructiveSubB e.speech_type || rebuttalSubB e.speech_type) then
      if e.speaker == "user" then
        { speaker := "user", role := none, speech_type := none,
          content := summarize e.content 100 } :: ctx
      else ctx
    else collect_crossfire rest ctx

/-- `llms_logic.py` lines 159-162: emit the collected context entries whose
`speech_type` lowercases to exactly "crossfire" or "crossfire-question";
reading `entry["speech_type"]` raises on the synthetic entry. -/
def emit_crossfire_context : List CtxEntry → Except String (List Msg)
  | [] => .ok []
  | e :: rest =>
    match keyGetSpeechType e with
    | .error err => .error err
    | .ok st =>
      match emit_crossfire_context rest with
      | .error err => .error err
      | .ok ms =>
        if pyToLower st = "crossfire" ∨ pyToLower st = "crossfire-question" then
          .ok ({ role := if e.speaker == "ai" then "assistant" else "user",
                 content := e.content } :: ms)
        else
          .ok ms

/-- `llms_logic.py` lines 164-167: re-scan `reversed(context)` and append
the most recent user-authored crossfire entry again.  Python's `and`
short-circuits, so `entry["speech_type"]` is only read when the speaker
matched. -/
def last_user_crossfire : List CtxEntry → Except String (List Msg)
  | [] => .ok []
  | e :: rest =>
    if e.speaker == "user" then
      match keyGetSpeechType e with
      | .error err => .error err
      | .ok st =>
        if cfSubB st then
          .ok [{ role := "user", content := e.content }]
        else
          last_user_crossfire rest
    else last_user_crossfire rest

/-- The transcript-derived part of the crossfire branch of `build_messages`
(`llms_logic.py` lines 140-167). -/
def crossfire_messages (transcript : List Entry) : Except String (List Msg) :=
  let ctx := collect_crossfire transcript.reverse []
  match emit_crossfire_context ctx with
  | .error err => .error err
  | .ok a =>
    match last_user_crossfire ctx.reverse with
    | .error err => .error err
    | .ok b => .ok (a ++ b)

/-- `llms_logic.py` lines 169-180: the rebuttal branch context loop
(newest-first scan with `insert(0, ...)`, i.e. the 5 most recent entries in
chronological order, Constructive contents summarized to 200 chars). -/
def rebuttal_collect : List Entry → List Msg → List Msg
  | [], ctx => ctx
  | e :: rest, ctx =>
    if 5 ≤ ctx.length then ctx
    else
      rebuttal_collect rest
        ({ role := if e.speaker == "ai" then "assistant" else "user",
           content := if constructiveSubB e.speech_type then
               summarize e.content 200 else e.content } :: ctx)

def rebuttal_messages (transcript : List Entry) : List Msg :=
  rebuttal_collect transcript.reverse []

/-- `llms_logic.py` lines 182-186: the default branch
(`transcript[-6:]`, verbatim). -/
def default_messages (transcript : List Entry) : List Msg :=
  (transcript.drop (transcript.length - 6)).map fun e =>
    { role := if e.speaker == "ai" then "assistant" else "user",
      content := e.content }

/-- The system prompt of `build_messages` (lines 51-131).  The spec (section 1)
treats the exact prompt wording as an external parameterized template, not a
design concern; we model it as a deterministic function of the session
parameters it interpolates and keep its wording abstract. -/
def system_prompt (s : DebateState) (speech_type : String) : String :=
  "SYSTEM PROMPT " ++ s.resolution ++ " " ++ s.ai_role ++ " "
    ++ s.ai_difficulty ++ " " ++ speech_type ++ " "
    ++ toString s.turn_number ++ " " ++ s.current_phase.name

/-- `llms_logic.py` lines 31-189: `build_messages`.  A raised `KeyError`
from the crossfire branch is the `.error` case.  (`speech_type_override or
...` is Python truthiness; callers only ever pass `None` or a non-empty
string, which `Option.getD` models.) -/
def build_messages (s : DebateState) (speech_type_override : Option String) :
    Except String (List Msg) :=
  let speech_type := speech_type_override.getD s.get_expected_speech_type
  let sys : Msg := { role := "system", content := system_prompt s speech_type }
  if cfSubB speech_type then
    match crossfire_messages s.transcript with
    | .error err => .error err
    | .ok rest => .ok (sys :: rest)
  else if rebuttalSubB speech_type then
    .ok (sys :: rebuttal_messages s.transcript)
  else
    .ok (sys :: default_messages s.transcript)

/-- The sentinel returned when primary and fallback both fail
(`llms_logic.py` line 251). -/
def ai_error_sentinel : String := "AI error: Could not generate response."

/-- `llms_logic.py` lines 192-251: `generate_ai_speech`.  The two
language-model calls are external collaborators (spec section 6); their
outcomes are the oracles `primary` and `fallback` (`.ok` = accumulated
streamed text, `.error` = transport/status failure).  `build_messages`
runs before the `try`, so its `KeyError` propagates (first `.error` case).
The returned state equals the input state: the Python function never
assigns to `debate_state`. -/
def generate_ai_speech (s : DebateState) (speech_type : String)
    (primary fallback : Except String String) :
    Except String String × DebateState :=
  match build_messages s (some speech_type) with
  | .error e => (.error e, s)
  | .ok _messages =>
    match primary with
    | .ok result => (.ok result, s)
    | .error _ =>
      match fallback with
      | .ok result => (.ok result, s)
      | .error _ => (.ok ai_error_sentinel, s)

/-- A minimal model of the JSON values `generate_judging_feedback` returns
(`json.loads(content)` on success, an error dict on total failure). -/
inductive Jsonish where
  | str (s : String)
  | num (n : Int)
  | obj (fields : List (String × Jsonish))

/-- Key lookup on a JSON object. -/
def Jsonish.hasKey (j : Jsonish) (k : String) : Bool :=
  match j with
  | .obj fields => fields.any (fun f => f.1 == k)
  | _ => false

/-- The error object returned at `llms_logic.py` line 330. -/
def judging_error_obj : Jsonish :=
  .obj [("error", .str "Failed to generate judging feedback.")]

/-- A valid verdict per the schema demanded at lines 276-285: the six keys
of the required JSON format. -/
def is_valid_verdict (j : Jsonish) : Bool :=
  ["winner", "score_pro", "score_con", "rfd", "feedback_pro",
   "feedback_con"].all (fun k => j.hasKey k)

/-- `llms_logic.py` lines 253-330: `generate_judging_feedback`.  Each call
oracle is `.ok v` when the call returned 200 and its content parsed as
JSON `v`, `.error` otherwise (non-200 status, transport failure, or a
payload `json.loads` rejects).  The function reads the session but never
assigns to it, so the returned state is the input state. -/
def generate_judging_feedback (s : DebateState)
    (primary fallback : Except String Jsonish) : Jsonish × DebateState :=
  match primary with
  | .ok result => (result, s)
  | .error _ =>
    match fallback with
    | .ok result => (result, s)
    | .error _ => (judging_error_obj, s)

/-! ### `main.py`: the session coordinator (`debate_socket` loop body) -/

/-- `main.py` lines 209-225: `map_speech_type_to_phase`. -/
def map_speech_type_to_phase (speech_type role : String)
    (transcript : List Entry) : Option DebatePhase :=
  let st := pyToLower speech_type
  let st := pyReplaceUnderscores (pyToLower (pyStrip st))
  let role := pyToLower role
  if st = "constructive" then
    some (if role = "pro" then .PRO_CONSTRUCTIVE else .CON_CONSTRUCTIVE)
  else if st = "rebuttal" then
    some (if role = "pro" then .PRO_REBUTTAL else .CON_REBUTTAL)
  else if st = "summary" then
    some (if role = "pro" then .PRO_SUMMARY else .CON_SUMMARY)
  else if st = "final focus" then
    some (if role = "pro" then .FINAL_FOCUS_PRO else .FINAL_FOCUS_CON)
  else if st = "crossfire" then
    let crossfires := transcript.countP (fun t => pyToLower t.speech_type == "crossfire")
    some (if 4 ≤ crossfires then .CROSSFIRE_2_QA else .CROSSFIRE_1_QA)
  else
    none

/-- One incoming websocket event (`data` in `main.py` lines 90-147):
`end_phase`, a `speech` with its payload fields, or any other type
(rejected at lines 130-132). -/
inductive Event where
  | end_phase
  | speech (speaker role speech_type content : String)
  | other (t : String)

/-- The AI-turn block the `debate_socket` loop repeats verbatim three times
(`main.py` lines 117-127, 161-172 and 184-196): generate an AI speech of
the given type and append it to the transcript; an exception from
`generate_ai_speech` (the `build_messages` `KeyError`) kills the loop with
the state mutated so far. -/
def ai_turn_step (x : DebateState) (speech_type : String)
    (p f : Except String String) : DebateState × Option String :=
  match generate_ai_speech x speech_type p f with
  | (.ok ai_text, x) => (x.log_speech "ai" x.ai_role speech_type ai_text, none)
  | (.error e, x) => (x, some e)

/-- One iteration of the `debate_socket` loop (`main.py` lines 89-196) as a
state transformer.  The language-model call outcomes are the oracles
`p`/`f` (speech generation) and `pj`/`fj` (judging).  The second component
is `some e` when the iteration raised an uncaught exception `e` (the
`KeyError` from `build_messages`): the Python loop dies there, but the
mutations made before the raise persist in the module-level session, which
the returned state reflects. -/
def debate_socket_step (s : DebateState) (ev : Event)
    (p f : Except String String) (pj fj : Except String Jsonish) :
    DebateState × Option String :=
  match ev with
  | .end_phase =>
    if s.current_phase = .FINAL_FOCUS_CON then
      -- lines 94-109: judging branch
      let s := s.advance_phase
      let (_judging_result, s) := generate_judging_feedback s pj fj
      (s, none)
    else
      -- lines 111-128
      let s := s.advance_phase
      if s.is_ai_turn then
        ai_turn_step s s.get_expected_speech_type p f
      else (s, none)
  | .other _ => (s, none)  -- lines 130-132: error reply, no state change
  | .speech speaker role speech_type content =>
    -- lines 134-147
    let user_speech_type := pyToLower speech_type
    let roleL := pyToLower role
    match map_speech_type_to_phase user_speech_type roleL s.transcript with
    | none => (s, none)  -- line 139: error reply, no state change
    | some new_phase =>
      let s := s.log_speech speaker role speech_type content
      if user_speech_type = "crossfire" then
        -- lines 149-173
        let s := if s.current_phase ≠ new_phase then
            { s with current_phase := new_phase } else s
        let s := { s with current_speaker :=
            if speaker == "user" then "ai" else "user" }
        if s.is_ai_turn then
          ai_turn_step s "Crossfire" p f
        else (s, none)
      else
        -- lines 175-196
        let s := { s with current_phase := new_phase }
        let s := s.advance_phase
        if s.is_ai_turn then
          ai_turn_step s s.get_expected_speech_type p f
        else (s, none)

/-! ### Theorems -/

/-- `advance_phase` iterated `n` times. -/
def advanceN : Nat → DebateState → DebateState
  | 0, s => s
  | n + 1, s => advanceN n s.advance_phase

/-- `set_speaker_by_phase` only writes `current_speaker`. -/
lemma set_speaker_by_phase_frame (s : DebateState) :
    s.set_speaker_by_phase.current_phase = s.current_phase ∧
    s.set_speaker_by_phase.phase_order = s.phase_order ∧
    s.set_speaker_by_phase.transcript = s.transcript ∧
    s.set_speaker_by_phase.turn_number = s.turn_number ∧
    s.set_speaker_by_phase.user_role = s.user_role ∧
    s.set_speaker_by_phase.ai_role = s.ai_role := by
  obtain ⟨res, ur, ar, ad, mo, tn, tr, po, cp, cs⟩ := s
  cases cp <;> exact ⟨rfl, rfl, rfl, rfl, rfl, rfl⟩

/-- The phase component of one `advance_phase` step (proof-layer helper). -/
def phaseStep (order : List DebatePhase) (p : DebatePhase) : DebatePhase :=
  if order.indexOf p + 1 < order.length then
    order.getD (order.indexOf p + 1) .COMPLETED
  else .COMPLETED

/-- `phaseStep` iterated. -/
def phaseStepN : Nat → List DebatePhase → DebatePhase → DebatePhase
  | 0, _, p => p
  | n + 1, order, p => phaseStepN n order (phaseStep order p)

lemma advance_phase_phase (s : DebateState) :
    s.advance_phase.current_phase = phaseStep s.phase_order s.current_phase ∧
    s.advance_phase.phase_order = s.phase_order := by
  simp only [DebateState.advance_phase, phaseStep]
  constructor
  · split
    · exact (set_speaker_by_phase_frame _).1
    · rfl
  · split
    · exact (set_speaker_by_phase_frame _).2.1
    · rfl

lemma advanceN_phase (n : Nat) (s : DebateState) :
    (advanceN n s).current_phase = phaseStepN n s.phase_order s.current_phase ∧
    (advanceN n s).phase_order = s.phase_order := by
  induction n generalizing s with
  | zero => exact ⟨rfl, rfl⟩
  | succ n ih =>
    have h := advance_phase_phase s
    have h2 := ih s.advance_phase
    constructor
    · show (advanceN n s.advance_phase).current_phase = _
      rw [h2.1, h.1, h.2]
      rfl
    · show (advanceN n s.advance_phase).phase_order = _
      rw [h2.2, h.2]

/-- Advancing a COMPLETED session (either order) is a no-op on the whole
state. -/
lemma advance_phase_at_completed (s : DebateState)
    (hcp : s.current_phase = DebatePhase.COMPLETED)
    (hord : s.phase_order = pro_phase_order ∨ s.phase_order = con_phase_order) :
    s.advance_phase = s := by
  obtain ⟨res, ur, ar, ad, mo, tn, tr, po, cp, cs⟩ := s
  subst hcp
  rcases hord with h | h <;> subst h <;> rfl

/-- C1: For every session (either role-dependent phase order), applying
`advance_phase()` 11 times from the initial phase reaches COMPLETED, and a
12th application is idempotent: the session stays at COMPLETED (advancing
from COMPLETED is a no-op). -/
theorem C1_eleven_advances_complete (res role diff mode : String) :
    (advanceN 11 (DebateState.init res role diff mode)).current_phase
      = DebatePhase.COMPLETED ∧
    (advanceN 11 (DebateState.init res role diff mode)).advance_phase
      = advanceN 11 (DebateState.init res role diff mode) := by
  obtain ⟨h1, h2⟩ := advanceN_phase 11 (DebateState.init res role diff mode)
  have hord : (DebateState.init res role diff mode).phase_order = pro_phase_order ∨
      (DebateState.init res role diff mode).phase_order = con_phase_order := by
    by_cases h : pyToLower role = "pro"
    · exact Or.inl (by simp only [DebateState.init, h, reduceIte])
    · exact Or.inr (by simp only [DebateState.init, h, reduceIte])
  have hphase : (advanceN 11 (DebateState.init res role diff mode)).current_phase
      = DebatePhase.COMPLETED := by
    rw [h1]
    by_cases h : pyToLower role = "pro" <;>
      simp only [DebateState.init, h, if_true, if_false, reduceIte] <;> rfl
  refine ⟨hphase, advance_phase_at_completed _ hphase ?_⟩
  rw [h2]
  exact hord

/-- C9: Neither `generate_ai_speech` nor `generate_judging_feedback`
mutates the session: whatever the call outcomes, the state they hand back
is exactly the input state (the Python functions only read
`debate_state`). -/
theorem C9_generation_does_not_mutate (s : DebateState) (speech_type : String)
    (p f : Except String String) (pj fj : Except String Jsonish) :
    (generate_ai_speech s speech_type p f).2 = s ∧
    (generate_judging_feedback s pj fj).2 = s := by
  constructor
  · cases hb : build_messages s (some speech_type) <;> cases p <;> cases f <;>
      simp [generate_ai_speech, hb]
  · cases pj <;> cases fj <;> rfl

/-- C10: For every session in JUDGING_PHASE (with either phase order),
`advance_phase()` moves it to COMPLETED, resets `turn_number` to 1, and
leaves `current_speaker` unchanged (the speaker-assignment rule has no
COMPLETED case); in particular a session judging with speaker "ai" still
reports `is_ai_turn()` in the COMPLETED terminal state. -/
theorem C10_advance_from_judging (s : DebateState)
    (h1 : s.current_phase = DebatePhase.JUDGING_PHASE)
    (h2 : s.phase_order = pro_phase_order ∨ s.phase_order = con_phase_order) :
    s.advance_phase.current_phase = DebatePhase.COMPLETED ∧
    s.advance_phase.turn_number = 1 ∧
    s.advance_phase.current_speaker = s.current_speaker ∧
    (s.current_speaker = "ai" → s.advance_phase.is_ai_turn = true) := by
  obtain ⟨res, ur, ar, ad, mo, tn, tr, po, cp, cs⟩ := s
  subst h1
  rcases h2 with h2 | h2 <;> subst h2 <;>
    exact ⟨rfl, rfl, rfl, fun h => by subst h; rfl⟩

/-- C10 witness: a concrete judging-phase session with speaker "ai". -/
theorem C10_advance_from_judging_witness :
    ({ DebateState.init "res" "pro" "beginner" "user-vs-ai" with
        current_phase := DebatePhase.JUDGING_PHASE,
        current_speaker := "ai" } : DebateState).advance_phase.current_phase
      = DebatePhase.COMPLETED ∧
    ({ DebateState.init "res" "pro" "beginner" "user-vs-ai" with
        current_phase := DebatePhase.JUDGING_PHASE,
        current_speaker := "ai" } : DebateState).advance_phase.turn_number = 1 ∧
    ({ DebateState.init "res" "pro" "beginner" "user-vs-ai" with
        current_phase := DebatePhase.JUDGING_PHASE,
        current_speaker := "ai" } : DebateState).advance_phase.current_speaker
      = "ai" ∧
    ({ DebateState.init "res" "pro" "beginner" "user-vs-ai" with
        current_phase := DebatePhase.JUDGING_PHASE,
        current_speaker := "ai" } : DebateState).advance_phase.is_ai_turn = true := by
  have h := C10_advance_from_judging
    { DebateState.init "res" "pro" "beginner" "user-vs-ai" with
        current_phase := DebatePhase.JUDGING_PHASE, current_speaker := "ai" }
    rfl (Or.inl rfl)
  exact ⟨h.1, h.2.1, h.2.2.1, h.2.2.2 rfl⟩

/-- C2: in a transcript with no Crossfire entries whose most recent entry
is a human-authored Constructive entry, the crossfire context builder does
NOT return normally: the synthetic injected entry is built without a
`speech_type` key, and the very next loop reads `entry["speech_type"]`,
raising `KeyError`.  This theorem evaluates the code at the failing
input. -/
theorem C2_crossfire_injection_raises_keyerror :
    crossfire_messages
      [{ speaker := "user", role := "Pro", speech_type := "Constructive",
         content := "we should adopt this plan because it works" }]
      = .error "KeyError: speech_type" := by
  rfl

/-- C6: given that the context builds (so a primary call actually
happens), if the primary model call fails then `generate_ai_speech`
returns the fallback's accumulated text when the fallback succeeds and the
sentinel failure string when the fallback also fails, and in either case
it returns normally (never throws to the caller); the match on the single
`fallback` oracle reflects that there is no retry beyond the one fallback
attempt. -/
theorem C6_fallback_policy (s : DebateState) (speech_type ep : String)
    (f : Except String String) (msgs : List Msg)
    (hb : build_messages s (some speech_type) = .ok msgs) :
    (generate_ai_speech s speech_type (.error ep) f).1 =
      (match f with
        | .ok t => Except.ok t
        | .error _ => Except.ok ai_error_sentinel) ∧
    ((generate_ai_speech s speech_type (.error ep) f).1).isOk = true := by
  cases f <;> simp [generate_ai_speech, hb, Except.isOk, Except.toBool]

/-- C6 witness: fresh session, Constructive speech, primary fails,
fallback succeeds and its text is returned; and with both failing the
sentinel is returned. -/
theorem C6_fallback_policy_witness :
    (generate_ai_speech (DebateState.init "res" "pro" "beginner" "user-vs-ai")
        "Constructive" (.error "boom") (.ok "fallback text")).1
      = .ok "fallback text" ∧
    (generate_ai_speech (DebateState.init "res" "pro" "beginner" "user-vs-ai")
        "Constructive" (.error "boom") (.error "also boom")).1
      = .ok ai_error_sentinel := by
  have h1 := C6_fallback_policy (DebateState.init "res" "pro" "beginner" "user-vs-ai")
    "Constructive" "boom" (.ok "fallback text") _ rfl
  have h2 := C6_fallback_policy (DebateState.init "res" "pro" "beginner" "user-vs-ai")
    "Constructive" "boom" (.error "also boom") _ rfl
  exact ⟨h1.1, h2.1⟩

lemma pyRfindSpace_none_iff (l : List Char) :
    pyRfindSpace l = none ↔ spaceChar ∉ l := by
  induction l with
  | nil => simp [pyRfindSpace]
  | cons c rest ih =>
    rw [pyRfindSpace]
    cases h : pyRfindSpace rest with
    | some j =>
      have hmem : spaceChar ∈ rest := by
        by_contra hns
        rw [ih.mpr hns] at h
        exact Option.noConfusion h
      simp [List.mem_cons, hmem]
    | none =>
      have hns : spaceChar ∉ rest := ih.mp h
      by_cases hc : c = spaceChar
      · simp [hc]
      · simp only [List.mem_cons]
        constructor
        · intro _ hm
          rcases hm with hm | hm
          · exact hc hm.symm
          · exact hns hm
        · intro _
          rw [if_neg hc]

lemma pyRfindSpace_spec (l : List Char) (i : Nat) (h : pyRfindSpace l = some i) :
    i < l.length ∧ l[i]? = some spaceChar := by
  induction l generalizing i with
  | nil => exact absurd h (by simp [pyRfindSpace])
  | cons c rest ih =>
    rw [pyRfindSpace] at h
    cases hr : pyRfindSpace rest with
    | some j =>
      rw [hr] at h
      obtain rfl : i = j + 1 := (Option.some.inj h).symm
      obtain ⟨ih1, ih2⟩ := ih j hr
      exact ⟨Nat.succ_lt_succ ih1, by simpa using ih2⟩
    | none =>
      rw [hr] at h
      by_cases hc : c = spaceChar
      · rw [if_pos hc] at h
        obtain rfl : i = 0 := (Option.some.inj h).symm
        exact ⟨Nat.succ_pos _, by simp [hc]⟩
      · rw [if_neg hc] at h
        exact Option.noConfusion h

/-- The truncation law asserted by the spec: for content over the limit the
builder's output is a strict prefix of the content ending at a word boundary
(the next content character is a space) followed by the ellipsis marker, and
no longer than limit + marker length.  `p` is the prefix preceding the
marker; `(p ++ [spaceChar]) ++ t = content` packages both the strict-prefix
and the word-boundary requirements. -/
def truncation_law (content : List Char) (limit : Nat) : Prop :=
  ∃ p t : List Char,
    summarizeL content limit = p ++ "...".toList ∧
    (p ++ [spaceChar]) ++ t = content ∧
    (summarizeL content limit).length ≤ limit + 3

/-- C5 counterexample: a 101-character content with no space is strictly
longer than the 100-character limit, yet `summarize` returns the bare
100-character prefix plus "...", which does not end at a word boundary, so
the claimed truncation law fails on it. -/
theorem C5_truncation_cex :
    100 < (List.replicate 101 'a').length ∧
    ¬ truncation_law (List.replicate 101 'a') 100 := by
  constructor
  · decide
  · rintro ⟨p, t, h1, h2, -⟩
    have hs : summarizeL (List.replicate 101 'a') 100
        = List.replicate 100 'a' ++ "...".toList := by rfl
    rw [hs] at h1
    have hp : p = List.replicate 100 'a' := List.append_cancel_right h1.symm
    subst hp
    have hlen := congrArg List.length h2
    simp only [List.length_append, List.length_replicate, List.length_cons,
      List.length_nil] at hlen
    have ht : t = [] := List.eq_nil_of_length_eq_zero (by omega)
    subst ht
    rw [List.append_nil] at h2
    exact absurd h2 (by decide)

/-- C5 (amended): for content strictly longer than the limit whose first
`limit` characters contain at least one space, the truncation law holds:
`summarize` cuts at the last space inside the window, yielding a strict
prefix ending at a word boundary plus "...", of length at most limit + 3.
(When the window contains no space the code returns the bare prefix plus
"...", still within the length bound but not at a word boundary.) -/
theorem C5_truncation_amended (content : List Char) (limit : Nat)
    (h1 : limit < content.length) (h2 : spaceChar ∈ content.take limit) :
    truncation_law content limit := by
  have hne : pyRfindSpace (content.take limit) ≠ none := by
    intro h
    exact ((pyRfindSpace_none_iff _).mp h) h2
  obtain ⟨i, hi⟩ := Option.ne_none_iff_exists'.mp hne
  obtain ⟨hilt, hig⟩ := pyRfindSpace_spec _ _ hi
  have hlimlen : (content.take limit).length = limit := by
    rw [List.length_take]; omega
  have hilim : i < limit := hlimlen ▸ hilt
  rw [List.getElem?_take_of_lt hilim] at hig
  have hidx : i < content.length := lt_trans hilim h1
  have hsum : summarizeL content limit
      = (content.take limit).take i ++ "...".toList := by
    simp only [summarizeL, if_pos h1, hi]
  have hpp : (content.take limit).take i = content.take i := by
    rw [List.take_take, Nat.min_eq_left hilim.le]
  have hgi : content[i] = spaceChar := by
    have hg := List.getElem?_eq_getElem hidx
    rw [hg] at hig
    exact Option.some.inj hig
  have hdrop : [spaceChar] ++ content.drop (i + 1) = content.drop i := by
    rw [← hgi, List.drop_eq_getElem_cons hidx]
    rfl
  have hdecomp : (content.take i ++ [spaceChar]) ++ content.drop (i + 1)
      = content := by
    rw [List.append_assoc, hdrop, List.take_append_drop]
  have hlen : (summarizeL content limit).length ≤ limit + 3 := by
    rw [hsum, hpp, List.length_append, List.length_take,
      Nat.min_eq_left hidx.le]
    have : ("...".toList).length = 3 := by decide
    omega
  exact ⟨content.take i, content.drop (i + 1), by rw [hsum, hpp], hdecomp, hlen⟩

/-- C5 witness: "ab cd" with limit 3 satisfies the amended truncation law
(output "ab..."). -/
theorem C5_truncation_amended_witness :
    3 < ("ab cd".toList).length ∧ spaceChar ∈ ("ab cd".toList).take 3 ∧
    truncation_law "ab cd".toList 3 :=
  ⟨by decide, by decide, C5_truncation_amended _ _ (by decide) (by decide)⟩

/-- C7: when both judging model calls fail (non-success status, transport
failure, or a payload that `json.loads` rejects), `generate_judging_feedback`
returns the structured error object, which carries an "error" key and is not
shaped like a valid verdict, so callers can distinguish it; the operation
does not touch the phase, and the coordinator's end-phase judging branch (for
the pro-ordered session that reaches FINAL_FOCUS_CON) leaves the session in
JUDGING_PHASE, never COMPLETED. -/
theorem C7_judging_total_failure (s : DebateState)
    (p f : Except String String) (pj fj : Except String Jsonish)
    (ep ef : String)
    (hpj : pj = .error ep) (hfj : fj = .error ef)
    (hph : s.current_phase = DebatePhase.FINAL_FOCUS_CON)
    (hord : s.phase_order = pro_phase_order) :
    (generate_judging_feedback s pj fj).1 = judging_error_obj ∧
    judging_error_obj.hasKey "error" = true ∧
    is_valid_verdict judging_error_obj = false ∧
    (generate_judging_feedback s pj fj).2.current_phase = s.current_phase ∧
    (debate_socket_step s .end_phase p f pj fj).1.current_phase
      = DebatePhase.JUDGING_PHASE ∧
    (debate_socket_step s .end_phase p f pj fj).1.current_phase
      ≠ DebatePhase.COMPLETED := by
  subst hpj hfj
  obtain ⟨res, ur, ar, ad, mo, tn, tr, po, cp, cs⟩ := s
  subst hph hord
  exact ⟨rfl, rfl, rfl, rfl, rfl, by intro h; exact DebatePhase.noConfusion h⟩

/-- C7 witness: a concrete pro-ordered session at FINAL_FOCUS_CON with both
judging calls failing. -/
theorem C7_judging_total_failure_witness :
    (generate_judging_feedback
        { DebateState.init "res" "pro" "beginner" "user-vs-ai" with
            current_phase := DebatePhase.FINAL_FOCUS_CON }
        (.error "503") (.error "bad json")).1 = judging_error_obj ∧
    (debate_socket_step
        { DebateState.init "res" "pro" "beginner" "user-vs-ai" with
            current_phase := DebatePhase.FINAL_FOCUS_CON }
        .end_phase (.error "x") (.error "y") (.error "503")
        (.error "bad json")).1.current_phase = DebatePhase.JUDGING_PHASE := by
  have h := C7_judging_total_failure
    { DebateState.init "res" "pro" "beginner" "user-vs-ai" with
        current_phase := DebatePhase.FINAL_FOCUS_CON }
    (.error "x") (.error "y") (.error "503") (.error "bad json")
    "503" "bad json" rfl rfl rfl rfl
  exact ⟨h.1, h.2.2.2.2.1⟩

/-- The claim C8 makes: any speech event carrying an unrecognized speech
type or an unrecognized role is rejected before any state mutation. -/
def C8_claim : Prop :=
  ∀ (s : DebateState) (speaker role speech_type content : String)
    (p f : Except String String) (pj fj : Except String Jsonish),
    ((pyToLower role ≠ "pro" ∧ pyToLower role ≠ "con") ∨
      map_speech_type_to_phase (pyToLower speech_type) (pyToLower role)
        s.transcript = none) →
    (debate_socket_step s (.speech speaker role speech_type content)
      p f pj fj).1 = s

/-- C8 counterexample: a turn with the unrecognized role "judge" and speech
type "constructive" is NOT rejected: `map_speech_type_to_phase` coerces any
non-"pro" role to the CON-side phase, the entry is logged and the phase is
advanced, so the session is mutated. -/
theorem C8_invalid_role_not_rejected_cex : ¬ C8_claim := by
  intro h
  have h2 := h (DebateState.init "r" "pro" "beginner" "user-vs-ai")
    "user" "judge" "constructive" "hi"
    (.error "e") (.error "e") (.error "e") (.error "e")
    (Or.inl ⟨by decide, by decide⟩)
  have h3 : (debate_socket_step (DebateState.init "r" "pro" "beginner" "user-vs-ai")
      (.speech "user" "judge" "constructive" "hi")
      (.error "e") (.error "e") (.error "e") (.error "e")).1.transcript.length
      = 1 := by rfl
  rw [h2] at h3
  exact Nat.noConfusion h3

/-- C8 (amended): a speech event whose speech type is unrecognized (the
phase mapper returns none) is rejected before any state mutation: the
session is returned unchanged and no exception is raised.  (An unrecognized
role, by contrast, is coerced to the CON side; for crossfire the role is
ignored.) -/
theorem C8_unknown_speech_type_rejected (s : DebateState)
    (speaker role speech_type content : String)
    (p f : Except String String) (pj fj : Except String Jsonish)
    (h : map_speech_type_to_phase (pyToLower speech_type) (pyToLower role)
      s.transcript = none) :
    debate_socket_step s (.speech speaker role speech_type content) p f pj fj
      = (s, none) := by
  simp only [debate_socket_step, h]

/-- C8 witness: the unknown speech type "poem" is rejected with no state
change. -/
theorem C8_unknown_speech_type_rejected_witness :
    map_speech_type_to_phase (pyToLower "poem") (pyToLower "pro")
      (DebateState.init "r" "pro" "beginner" "user-vs-ai").transcript = none ∧
    debate_socket_step (DebateState.init "r" "pro" "beginner" "user-vs-ai")
      (.speech "user" "pro" "poem" "x")
      (.error "e") (.error "e") (.error "e") (.error "e")
      = (DebateState.init "r" "pro" "beginner" "user-vs-ai", none) :=
  ⟨by decide, C8_unknown_speech_type_rejected _ _ _ _ _ _ _ _ _ (by decide)⟩

/-- Every entry the crossfire collection loop adds to a non-empty context of
real (key-complete) entries is itself real: the synthetic key-less entry is
only ever injected into an empty context. -/
lemma collect_crossfire_real (l : List Entry) (acc : List CtxEntry)
    (hne : acc ≠ []) (hreal : ∀ e ∈ acc, e.speech_type.isSome = true) :
    ∀ e ∈ collect_crossfire l acc, e.speech_type.isSome = true := by
  induction l generalizing acc with
  | nil => simpa [collect_crossfire] using hreal
  | cons a rest ih =>
    rw [collect_crossfire]
    by_cases hcf : cfSubB a.speech_type = true
    · rw [if_pos hcf]
      by_cases h4 : 4 ≤ (a.toCtx :: acc).length
      · rw [if_pos h4]
        intro e he
        rcases List.mem_cons.mp he with rfl | he
        · rfl
        · exact hreal e he
      · rw [if_neg h4]
        exact ih (a.toCtx :: acc) (by simp) (fun e he => by
          rcases List.mem_cons.mp he with rfl | he
          · rfl
          · exact hreal e he)
    · rw [if_neg hcf]
      have hie : acc.isEmpty = false := by
        cases acc with
        | nil => exact absurd rfl hne
        | cons x xs => rfl
      rw [hie]
      simp only [Bool.false_and, Bool.false_eq_true, if_false]
      exact ih acc hne hreal

/-- The crossfire context built from an empty accumulator is either made of
real entries only, or is exactly one synthetic key-less entry. -/
lemma collect_crossfire_shape (l : List Entry) :
    (∀ e ∈ collect_crossfire l [], e.speech_type.isSome = true) ∨
    (∃ a : Entry, collect_crossfire l [] =
      [{ speaker := "user", role := none, speech_type := none,
         content := summarize a.content 100 }]) := by
  induction l with
  | nil =>
    left
    intro e he
    exact absurd he (List.not_mem_nil e)
  | cons a rest ih =>
    rw [collect_crossfire]
    by_cases hcf : cfSubB a.speech_type = true
    · rw [if_pos hcf]
      have h4 : ¬ (4 ≤ (a.toCtx :: ([] : List CtxEntry)).length) := by simp
      rw [if_neg h4]
      left
      exact collect_crossfire_real rest [a.toCtx] (by simp) (fun e he => by
        rcases List.mem_cons.mp he with rfl | he
        · rfl
        · exact absurd he (List.not_mem_nil e))
    · rw [if_neg hcf]
      by_cases hcr : (constructiveSubB a.speech_type
          || rebuttalSubB a.speech_type) = true
      · simp only [List.isEmpty_nil, Bool.true_and, hcr, if_true]
        by_cases hu : a.speaker == "user"
        · rw [if_pos hu]
          exact Or.inr ⟨a, rfl⟩
        · rw [if_neg hu]
          left
          intro e he
          exact absurd he (List.not_mem_nil e)
      · simp only [List.isEmpty_nil, Bool.true_and, hcr, Bool.false_eq_true,
          if_false]
        exact ih

/-- Emitting a context of real entries never raises. -/
lemma emit_crossfire_context_ok (ctx : List CtxEntry)
    (h : ∀ e ∈ ctx, e.speech_type.isSome = true) :
    ∃ msgs, emit_crossfire_context ctx = .ok msgs := by
  induction ctx with
  | nil => exact ⟨[], rfl⟩
  | cons e rest ih =>
    obtain ⟨ms, hms⟩ := ih (fun x hx => h x (List.mem_cons_of_mem _ hx))
    have he : e.speech_type.isSome = true := h e (List.mem_cons_self _ _)
    obtain ⟨st, hst⟩ := Option.isSome_iff_exists.mp he
    by_cases hc : pyToLower st = "crossfire" ∨ pyToLower st = "crossfire-question"
    · exact ⟨Msg.mk (if e.speaker == "ai" then "assistant" else "user")
        e.content :: ms, by simp only [emit_crossfire_context,
        keyGetSpeechType, hst, hms, hc, if_true]⟩
    · exact ⟨ms, by simp only [emit_crossfire_context, keyGetSpeechType, hst,
        hms, hc, if_false]⟩

/-- The predicate the duplicate-append re-scan tests (short-circuit `and`):
user-authored and crossfire-typed (by substring, on a real key). -/
def userCFb (e : CtxEntry) : Bool :=
  e.speaker == "user" && (match e.speech_type with
    | some st => cfSubB st
    | none => false)

/-- On a context of real entries, the duplicate-append re-scan is `find?` of
`userCFb` wrapped into a single user message. -/
lemma last_user_crossfire_eq (l : List CtxEntry)
    (h : ∀ e ∈ l, e.speech_type.isSome = true) :
    last_user_crossfire l = .ok (match l.find? userCFb with
      | some e => [{ role := "user", content := e.content }]
      | none => []) := by
  induction l with
  | nil => rfl
  | cons e rest ih =>
    have hrest := ih (fun x hx => h x (List.mem_cons_of_mem _ hx))
    have he : e.speech_type.isSome = true := h e (List.mem_cons_self _ _)
    obtain ⟨st, hst⟩ := Option.isSome_iff_exists.mp he
    by_cases hu : (e.speaker == "user") = true
    · by_cases hcf : cfSubB st = true
      · have hfind : userCFb e = true := by
          simp only [userCFb, hst, hu, Bool.true_and]
          exact hcf
        rw [List.find?_cons_of_pos _ hfind]
        simp only [last_user_crossfire, hu, if_true, keyGetSpeechType, hst,
          hcf, if_true]
      · have hfind : ¬ (userCFb e = true) := by
          simp only [userCFb, hst, hu, Bool.true_and]
          exact hcf
        rw [List.find?_cons_of_neg _ hfind]
        simp only [last_user_crossfire, hu, if_true, keyGetSpeechType, hst,
          hcf, if_false]
        exact hrest
    · have hfind : ¬ (userCFb e = true) := by
        simp only [userCFb, Bool.and_eq_true]
        intro hh
        exact hu hh.1
      rw [List.find?_cons_of_neg _ hfind]
      simp only [last_user_crossfire, hu, if_false]
      exact hrest

/-- The content of the most recent human-authored Crossfire entry of a
transcript (the quantity C4 says is always duplicate-appended). -/
def mostRecentHumanCF (t : List Entry) : Option String :=
  (t.reverse.find? (fun e => e.speaker == "user" && cfSubB e.speech_type)).map
    (fun e => e.content)

/-- What C4 claims of a transcript: whenever it contains a human-authored
Crossfire entry, the built crossfire context ends with a duplicate-appended
user message carrying that most recent entry's content. -/
def C4_claim_at (t : List Entry) : Prop :=
  ∀ c, mostRecentHumanCF t = some c →
    ∃ msgs, crossfire_messages t = .ok msgs ∧ msgs ≠ [] ∧
      msgs.getLast? = some { role := "user", content := c }

/-- C4 counterexample: the transcript [Crossfire by the human, Constructive
by the AI] contains a human crossfire entry, but the newest-first scan stops
at the AI constructive while the context is still empty, so the built
context is empty: nothing is appended at all, let alone the human's latest
crossfire content. -/
theorem C4_duplicate_append_cex :
    ¬ C4_claim_at
      [{ speaker := "user", role := "Pro", speech_type := "Crossfire",
         content := "q" },
       { speaker := "ai", role := "Con", speech_type := "Constructive",
         content := "c" }] := by
  intro h
  obtain ⟨msgs, h1, h2, -⟩ := h "q" (by rfl)
  have h0 : crossfire_messages
      [{ speaker := "user", role := "Pro", speech_type := "Crossfire",
         content := "q" },
       { speaker := "ai", role := "Con", speech_type := "Constructive",
         content := "c" }] = Except.ok ([] : List Msg) := by rfl
  rw [h0] at h1
  exact h2 (Except.ok.inj h1).symm

/-- C4 (amended): the duplicate-append rule holds of the collected context,
not the whole transcript: whenever the collected crossfire context contains
a human-authored crossfire entry, the builder returns normally and its
output ends with a duplicate-appended user message carrying the content of
the most recent such entry of the context. -/
theorem C4_duplicate_append_amended (t : List Entry) (e : CtxEntry)
    (he : e ∈ collect_crossfire t.reverse []) (hu : userCFb e = true) :
    ∃ msgs fe, crossfire_messages t = .ok msgs ∧
      (collect_crossfire t.reverse []).reverse.find? userCFb = some fe ∧
      msgs ≠ [] ∧
      msgs.getLast? = some { role := "user", content := fe.content } := by
  have hreal : ∀ x ∈ collect_crossfire t.reverse [],
      x.speech_type.isSome = true := by
    rcases collect_crossfire_shape t.reverse with hs | ⟨a, ha⟩
    · exact hs
    · exfalso
      rw [ha] at he
      rw [List.mem_singleton] at he
      subst he
      simp [userCFb] at hu
  obtain ⟨ms, hms⟩ := emit_crossfire_context_ok _ hreal
  have hrevreal : ∀ x ∈ (collect_crossfire t.reverse []).reverse,
      x.speech_type.isSome = true := by
    intro x hx
    exact hreal x (List.mem_reverse.mp hx)
  have hl := last_user_crossfire_eq _ hrevreal
  have hfs : ((collect_crossfire t.reverse []).reverse.find? userCFb).isSome := by
    rw [List.find?_isSome]
    exact ⟨e, List.mem_reverse.mpr he, hu⟩
  obtain ⟨fe, hfe⟩ := Option.isSome_iff_exists.mp hfs
  rw [hfe] at hl
  refine ⟨ms ++ [{ role := "user", content := fe.content }], fe, ?_, hfe,
    by simp, ?_⟩
  · simp only [crossfire_messages, hms, hl]
  · exact List.getLast?_concat _

/-- C4 witness: a transcript consisting of one human crossfire entry; the
context is that entry and the output ends with its content duplicated. -/
theorem C4_duplicate_append_amended_witness :
    ∃ msgs fe,
      crossfire_messages
        [{ speaker := "user", role := "Pro", speech_type := "Crossfire",
           content := "q" }] = .ok msgs ∧
      (collect_crossfire
        ([{ speaker := "user", role := "Pro", speech_type := "Crossfire",
            content := "q" }] : List Entry).reverse []).reverse.find? userCFb
        = some fe ∧
      msgs ≠ [] ∧
      msgs.getLast? = some { role := "user", content := fe.content } :=
  C4_duplicate_append_amended _
    { speaker := "user", role := some "Pro", speech_type := some "Crossfire",
      content := "q" } (by decide) (by decide)

/-! ### C3: crossfire speaker alternation -/

/-- A transcript entry is a Crossfire entry when its speech type lowercases
to exactly "crossfire" — the test both the coordinator branch and the
crossfire counter use. -/
def isCFEntry (e : Entry) : Bool := pyToLower e.speech_type == "crossfire"

/-- The per-pair requirement: not two adjacent crossfire entries by the
same speaker. -/
def cfAdjOK (a b : Entry) : Bool :=
  !(isCFEntry a && isCFEntry b && a.speaker == b.speaker)

/-- Adjacent crossfire entries always have different speakers. -/
def cfAlternationB : List Entry → Bool
  | a :: b :: rest => cfAdjOK a b && cfAlternationB (b :: rest)
  | _ => true

/-- The last entry, when it is a crossfire entry, was spoken by "ai". -/
def lastEntryCFAI (t : List Entry) : Bool :=
  match t.getLast? with
  | some e => !isCFEntry e || e.speaker == "ai"
  | none => true

/-- Whether the successor of `p` in `order` is a crossfire phase. -/
def succIsCF (order : List DebatePhase) (p : DebatePhase) : Bool :=
  phase_is_crossfire (order.getD (order.indexOf p + 1) .COMPLETED)

/-- The inductive invariant behind C3: alternation; an at-rest crossfire
tail is AI-authored; a "user" speaker never sits right before a crossfire
phase; the speaker is one of "user"/"ai"; and role/order are coherent. -/
def StateINV (s : DebateState) : Prop :=
  cfAlternationB s.transcript = true ∧
  lastEntryCFAI s.transcript = true ∧
  (s.current_speaker = "user" →
    succIsCF s.phase_order s.current_phase = false) ∧
  (s.current_speaker = "user" ∨ s.current_speaker = "ai") ∧
  ((s.user_role = "pro" ∧ s.phase_order = pro_phase_order) ∨
   (s.user_role ≠ "pro" ∧ s.phase_order = con_phase_order))

/-- Turn events as the spec's speaker-alternation scenario assumes them:
crossfire submissions carry the human speaker tag. -/
def GoodEv : Event → Prop
  | .speech speaker _ speech_type _ =>
      pyToLower speech_type = "crossfire" → speaker = "user"
  | _ => True

/-- Session states reachable from a fresh session through the coordinator's
turn handling (arbitrary events and call outcomes). -/
inductive Reachable : DebateState → Prop
  | start (res role diff mode : String) :
      Reachable (DebateState.init res role diff mode)
  | next (s : DebateState) (ev : Event) (p f : Except String String)
      (pj fj : Except String Jsonish) : Reachable s →
      Reachable (debate_socket_step s ev p f pj fj).1

/-- Reachability restricted to well-tagged crossfire events. -/
inductive ReachableGood : DebateState → Prop
  | start (res role diff mode : String) :
      ReachableGood (DebateState.init res role diff mode)
  | next (s : DebateState) (ev : Event) (p f : Except String String)
      (pj fj : Except String Jsonish) : ReachableGood s → GoodEv ev →
      ReachableGood (debate_socket_step s ev p f pj fj).1

lemma cfAlternationB_append (t : List Entry) (e : Entry)
    (h : cfAlternationB t = true)
    (hlast : ∀ a, t.getLast? = some a → cfAdjOK a e = true) :
    cfAlternationB (t ++ [e]) = true := by
  induction t with
  | nil => rfl
  | cons a rest ih =>
    cases rest with
    | nil =>
      have := hlast a rfl
      simp [cfAlternationB, this]
    | cons b rest2 =>
      have h2 : cfAdjOK a b = true ∧ cfAlternationB (b :: rest2) = true := by
        have hh : (cfAdjOK a b && cfAlternationB (b :: rest2)) = true := h
        rw [Bool.and_eq_true] at hh
        exact hh
      have ih' := ih h2.2 (fun x hx => hlast x (by
        rw [List.getLast?_cons_cons]
        exact hx))
      show (cfAdjOK a b && cfAlternationB ((b :: rest2) ++ [e])) = true
      rw [Bool.and_eq_true]
      exact ⟨h2.1, ih'⟩

lemma cfAdjOK_of_fst_not_cf (a b : Entry) (h : isCFEntry a = false) :
    cfAdjOK a b = true := by
  simp [cfAdjOK, h]

lemma cfAdjOK_of_snd_not_cf (a b : Entry) (h : isCFEntry b = false) :
    cfAdjOK a b = true := by
  simp [cfAdjOK, h]

lemma cfAlternationB_append_nonCF (t : List Entry) (e : Entry)
    (h : cfAlternationB t = true) (he : isCFEntry e = false) :
    cfAlternationB (t ++ [e]) = true :=
  cfAlternationB_append t e h (fun a _ => cfAdjOK_of_snd_not_cf a e he)

lemma lastEntryCFAI_append (t : List Entry) (e : Entry) :
    lastEntryCFAI (t ++ [e]) = (!isCFEntry e || e.speaker == "ai") := by
  rw [lastEntryCFAI, List.getLast?_concat]

/-- Appending a human-tagged entry after a transcript whose crossfire tail
(if any) is AI-authored keeps the alternation. -/
lemma cfAlternationB_append_user (t : List Entry) (e : Entry)
    (ha : cfAlternationB t = true) (hb : lastEntryCFAI t = true)
    (hspk : e.speaker = "user") :
    cfAlternationB (t ++ [e]) = true := by
  refine cfAlternationB_append t e ha (fun a hlast => ?_)
  have hb2 : (!isCFEntry a || a.speaker == "ai") = true := by
    have hh := hb
    unfold lastEntryCFAI at hh
    rw [hlast] at hh
    exact hh
  rw [Bool.or_eq_true] at hb2
  rcases hb2 with h1 | h1
  · have hcf : isCFEntry a = false := by
      cases hia : isCFEntry a
      · rfl
      · rw [hia] at h1
        exact absurd h1 (by decide)
    exact cfAdjOK_of_fst_not_cf a e hcf
  · have hai : a.speaker = "ai" := by simpa using h1
    simp [cfAdjOK, hai, hspk]

lemma advance_phase_frame (s : DebateState) :
    s.advance_phase.transcript = s.transcript ∧
    s.advance_phase.phase_order = s.phase_order ∧
    s.advance_phase.user_role = s.user_role ∧
    s.advance_phase.ai_role = s.ai_role := by
  simp only [DebateState.advance_phase]
  split
  · exact ⟨(set_speaker_by_phase_frame _).2.2.1,
      (set_speaker_by_phase_frame _).2.1,
      (set_speaker_by_phase_frame _).2.2.2.2.1,
      (set_speaker_by_phase_frame _).2.2.2.2.2⟩
  · exact ⟨rfl, rfl, rfl, rfl⟩

set_option maxHeartbeats 4000000 in
/-- Case table for one `advance_phase` step over both role-dependent
orders: the possible speaker values, the re-established
before-a-crossfire-phase property of a resulting "user" speaker, and the
facts available when the step lands on a crossfire phase (the speaker was
flipped, and the step started right before a crossfire phase). -/
lemma advance_phase_spec (s : DebateState)
    (hrole : (s.user_role = "pro" ∧ s.phase_order = pro_phase_order) ∨
             (s.user_role ≠ "pro" ∧ s.phase_order = con_phase_order)) :
    (s.advance_phase.current_speaker = s.current_speaker ∨
     s.advance_phase.current_speaker = "user" ∨
     s.advance_phase.current_speaker = "ai") ∧
    (s.advance_phase.current_speaker = "user" →
      succIsCF s.advance_phase.phase_order s.advance_phase.current_phase
        = false) ∧
    (phase_is_crossfire s.advance_phase.current_phase = true →
      succIsCF s.advance_phase.phase_order s.advance_phase.current_phase
        = false ∧
      succIsCF s.phase_order s.current_phase = true ∧
      (s.advance_phase.current_speaker = "ai" → ¬ s.current_speaker = "ai")) := by
  obtain ⟨res, ur, ar, ad, mo, tn, tr, po, cp, cs⟩ := s
  rcases hrole with ⟨hur, hord⟩ | ⟨hur, hord⟩
  · replace hur : ur = "pro" := hur
    replace hord : po = pro_phase_order := hord
    subst hur
    subst hord
    cases cp
    case PRO_CONSTRUCTIVE =>
      exact ⟨Or.inr (Or.inr rfl), fun h => absurd h (of_decide_eq_true rfl),
        fun h => absurd h (of_decide_eq_true rfl)⟩
    case CON_CONSTRUCTIVE =>
      refine ⟨?_, fun _ => of_decide_eq_true rfl,
        fun _ => ⟨of_decide_eq_true rfl, of_decide_eq_true rfl, fun h hc => ?_⟩⟩
      · by_cases hc : cs = "ai"
        · subst hc
          exact Or.inr (Or.inl rfl)
        · exact Or.inr (Or.inr (if_neg hc))
      · subst hc
        exact absurd h (of_decide_eq_true rfl)
    case CROSSFIRE_1_QA =>
      exact ⟨Or.inr (Or.inl rfl), fun _ => of_decide_eq_true rfl,
        fun h => absurd h (of_decide_eq_true rfl)⟩
    case PRO_REBUTTAL =>
      exact ⟨Or.inr (Or.inr rfl), fun h => absurd h (of_decide_eq_true rfl),
        fun h => absurd h (of_decide_eq_true rfl)⟩
    case CON_REBUTTAL =>
      refine ⟨?_, fun _ => of_decide_eq_true rfl,
        fun _ => ⟨of_decide_eq_true rfl, of_decide_eq_true rfl, fun h hc => ?_⟩⟩
      · by_cases hc : cs = "ai"
        · subst hc
          exact Or.inr (Or.inl rfl)
        · exact Or.inr (Or.inr (if_neg hc))
      · subst hc
        exact absurd h (of_decide_eq_true rfl)
    case CROSSFIRE_2_QA =>
      exact ⟨Or.inr (Or.inl rfl), fun _ => of_decide_eq_true rfl,
        fun h => absurd h (of_decide_eq_true rfl)⟩
    case PRO_SUMMARY =>
      exact ⟨Or.inr (Or.inr rfl), fun h => absurd h (of_decide_eq_true rfl),
        fun h => absurd h (of_decide_eq_true rfl)⟩
    case CON_SUMMARY =>
      exact ⟨Or.inr (Or.inl rfl), fun _ => of_decide_eq_true rfl,
        fun h => absurd h (of_decide_eq_true rfl)⟩
    case FINAL_FOCUS_PRO =>
      exact ⟨Or.inr (Or.inr rfl), fun h => absurd h (of_decide_eq_true rfl),
        fun h => absurd h (of_decide_eq_true rfl)⟩
    case FINAL_FOCUS_CON =>
      exact ⟨Or.inr (Or.inr rfl), fun h => absurd h (of_decide_eq_true rfl),
        fun h => absurd h (of_decide_eq_true rfl)⟩
    case JUDGING_PHASE =>
      exact ⟨Or.inl rfl, fun _ => of_decide_eq_true rfl, fun h => absurd h (of_decide_eq_true rfl)⟩
    case COMPLETED =>
      exact ⟨Or.inl rfl, fun _ => of_decide_eq_true rfl, fun h => absurd h (of_decide_eq_true rfl)⟩
  · replace hord : po = con_phase_order := hord
    subst hord
    replace hur : ¬ ur = "pro" := hur
    cases cp
    case CON_CONSTRUCTIVE =>
      exact ⟨Or.inr (Or.inr (if_neg hur)),
        fun h => absurd ((if_neg hur).symm.trans h) (of_decide_eq_true rfl),
        fun h => absurd h (of_decide_eq_true rfl)⟩
    case PRO_CONSTRUCTIVE =>
      refine ⟨?_, fun _ => of_decide_eq_true rfl,
        fun _ => ⟨of_decide_eq_true rfl, of_decide_eq_true rfl, fun h hc => ?_⟩⟩
      · by_cases hc : cs = "ai"
        · subst hc
          exact Or.inr (Or.inl rfl)
        · exact Or.inr (Or.inr (if_neg hc))
      · subst hc
        exact absurd h (of_decide_eq_true rfl)
    case CROSSFIRE_1_QA =>
      refine ⟨?_, fun _ => of_decide_eq_true rfl, fun h => absurd h (of_decide_eq_true rfl)⟩
      by_cases huc : ur = "con"
      · exact Or.inr (Or.inl (if_pos huc))
      · exact Or.inr (Or.inr (if_neg huc))
    case CON_REBUTTAL =>
      exact ⟨Or.inr (Or.inr (if_neg hur)),
        fun h => absurd ((if_neg hur).symm.trans h) (of_decide_eq_true rfl),
        fun h => absurd h (of_decide_eq_true rfl)⟩
    case PRO_REBUTTAL =>
      refine ⟨?_, fun _ => of_decide_eq_true rfl,
        fun _ => ⟨of_decide_eq_true rfl, of_decide_eq_true rfl, fun h hc => ?_⟩⟩
      · by_cases hc : cs = "ai"
        · subst hc
          exact Or.inr (Or.inl rfl)
        · exact Or.inr (Or.inr (if_neg hc))
      · subst hc
        exact absurd h (of_decide_eq_true rfl)
    case CROSSFIRE_2_QA =>
      refine ⟨?_, fun _ => of_decide_eq_true rfl, fun h => absurd h (of_decide_eq_true rfl)⟩
      by_cases huc : ur = "con"
      · exact Or.inr (Or.inl (if_pos huc))
      · exact Or.inr (Or.inr (if_neg huc))
    case CON_SUMMARY =>
      exact ⟨Or.inr (Or.inr (if_neg hur)),
        fun h => absurd ((if_neg hur).symm.trans h) (of_decide_eq_true rfl),
        fun h => absurd h (of_decide_eq_true rfl)⟩
    case PRO_SUMMARY =>
      refine ⟨?_, fun _ => of_decide_eq_true rfl, fun h => absurd h (of_decide_eq_true rfl)⟩
      by_cases huc : ur = "con"
      · exact Or.inr (Or.inl (if_pos huc))
      · exact Or.inr (Or.inr (if_neg huc))
    case FINAL_FOCUS_CON =>
      exact ⟨Or.inr (Or.inr (if_neg hur)),
        fun h => absurd ((if_neg hur).symm.trans h) (of_decide_eq_true rfl),
        fun h => absurd h (of_decide_eq_true rfl)⟩
    case FINAL_FOCUS_PRO =>
      exact ⟨Or.inr (Or.inr rfl), fun h => absurd h (of_decide_eq_true rfl),
        fun h => absurd h (of_decide_eq_true rfl)⟩
    case JUDGING_PHASE =>
      exact ⟨Or.inl rfl, fun _ => of_decide_eq_true rfl, fun h => absurd h (of_decide_eq_true rfl)⟩
    case COMPLETED =>
      exact ⟨Or.inl rfl, fun _ => of_decide_eq_true rfl, fun h => absurd h (of_decide_eq_true rfl)⟩

lemma cfAdjOK_of_speakers_ne (a b : Entry)
    (h : (a.speaker == b.speaker) = false) : cfAdjOK a b = true := by
  simp [cfAdjOK, h]

lemma lastEntryCFAI_append_ai (t : List Entry) (e : Entry)
    (h : (e.speaker == "ai") = true) : lastEntryCFAI (t ++ [e]) = true := by
  rw [lastEntryCFAI_append, h, Bool.or_true]

lemma lastEntryCFAI_append_noncf (t : List Entry) (e : Entry)
    (h : isCFEntry e = false) : lastEntryCFAI (t ++ [e]) = true := by
  rw [lastEntryCFAI_append, h]
  rfl

/-- `log_speech` only appends to the transcript. -/
lemma log_speech_frame (x : DebateState) (a b c d : String) :
    (x.log_speech a b c d).transcript
      = x.transcript ++ [Entry.mk a (pyCapitalize b) c d] ∧
    (x.log_speech a b c d).current_phase = x.current_phase ∧
    (x.log_speech a b c d).phase_order = x.phase_order ∧
    (x.log_speech a b c d).current_speaker = x.current_speaker ∧
    (x.log_speech a b c d).user_role = x.user_role :=
  ⟨rfl, rfl, rfl, rfl, rfl⟩

/-- Both generation operations hand back the state they were given. -/
lemma generate_ai_speech_snd (s : DebateState) (ty : String)
    (p f : Except String String) : (generate_ai_speech s ty p f).2 = s := by
  cases hb : build_messages s (some ty) <;> cases p <;> cases f <;>
    simp [generate_ai_speech, hb]

lemma generate_judging_feedback_snd (s : DebateState)
    (pj fj : Except String Jsonish) :
    (generate_judging_feedback s pj fj).2 = s := by
  cases pj <;> cases fj <;> rfl

/-- The expected speech type of a non-crossfire phase is never
crossfire-like. -/
lemma expected_speech_type_not_cf (s : DebateState)
    (h : phase_is_crossfire s.current_phase = false) :
    cfSubB s.get_expected_speech_type = false ∧
    (pyToLower s.get_expected_speech_type == "crossfire") = false := by
  obtain ⟨res, ur, ar, ad, mo, tn, tr, po, cp, cs⟩ := s
  cases cp <;> first
    | exact ⟨rfl, rfl⟩
    | exact absurd h (of_decide_eq_true rfl)

/-- A non-crossfire speech type reaches the rebuttal or default branch of
`build_messages`, which are total. -/
lemma build_messages_ok_of_not_cf (s : DebateState) (ty : String)
    (h : cfSubB ty = false) :
    ∃ msgs, build_messages s (some ty) = .ok msgs := by
  by_cases hr : rebuttalSubB ty = true
  · exact ⟨Msg.mk "system" (system_prompt s ty) :: rebuttal_messages s.transcript,
      by simp only [build_messages, Option.getD_some, h,
        Bool.false_eq_true, if_false, hr, if_true]⟩
  · exact ⟨Msg.mk "system" (system_prompt s ty) :: default_messages s.transcript,
      by simp only [build_messages, Option.getD_some, h,
        Bool.false_eq_true, if_false, hr, if_true]⟩

/-- Once the context builds, the primary/fallback policy always returns a
text (possibly the sentinel). -/
lemma generate_ai_speech_ok_of_build (s : DebateState) (ty : String)
    (p f : Except String String) (msgs : List Msg)
    (hb : build_messages s (some ty) = .ok msgs) :
    ∃ text, generate_ai_speech s ty p f = (.ok text, s) := by
  simp only [generate_ai_speech, hb]
  cases p with
  | ok r => exact ⟨r, rfl⟩
  | error e =>
    cases f with
    | ok r => exact ⟨r, rfl⟩
    | error e2 => exact ⟨ai_error_sentinel, rfl⟩

lemma generate_ai_speech_ok_of_not_cf (s : DebateState) (ty : String)
    (p f : Except String String) (h : cfSubB ty = false) :
    ∃ text, generate_ai_speech s ty p f = (.ok text, s) := by
  obtain ⟨msgs, hb⟩ := build_messages_ok_of_not_cf s ty h
  exact generate_ai_speech_ok_of_build s ty p f msgs hb

/-- The crossfire context of a transcript ending in a crossfire entry
builds without error: the scan collects that entry first, so the synthetic
key-less entry is never created. -/
lemma crossfire_messages_append_ok (t : List Entry) (e : Entry)
    (h : cfSubB e.speech_type = true) :
    ∃ msgs, crossfire_messages (t ++ [e]) = .ok msgs := by
  have hrev : (t ++ [e]).reverse = e :: t.reverse := by simp
  have hc4 : ¬ (4 ≤ ([e.toCtx] : List CtxEntry).length) := by simp
  have hctx : collect_crossfire ((t ++ [e]).reverse) []
      = collect_crossfire t.reverse [e.toCtx] := by
    rw [hrev, collect_crossfire, if_pos h, if_neg hc4]
  have hreal : ∀ x ∈ collect_crossfire t.reverse [e.toCtx],
      x.speech_type.isSome = true := by
    refine collect_crossfire_real _ _ (by simp) (fun x hx => ?_)
    rw [List.mem_singleton] at hx
    subst hx
    rfl
  obtain ⟨ms, hms⟩ := emit_crossfire_context_ok _ hreal
  have hrevreal : ∀ x ∈ (collect_crossfire t.reverse [e.toCtx]).reverse,
      x.speech_type.isSome = true :=
    fun x hx => hreal x (List.mem_reverse.mp hx)
  have hl := last_user_crossfire_eq _ hrevreal
  have hfin : crossfire_messages (t ++ [e])
      = .ok (ms ++ (match (collect_crossfire t.reverse [e.toCtx]).reverse.find?
          userCFb with
        | some e2 => [{ role := "user", content := e2.content }]
        | none => [])) := by
    simp only [crossfire_messages, hctx, hms, hl]
  exact ⟨_, hfin⟩

lemma build_messages_crossfire (x : DebateState) (msgs : List Msg)
    (h : crossfire_messages x.transcript = .ok msgs) :
    build_messages x (some "Crossfire")
      = .ok (Msg.mk "system" (system_prompt x "Crossfire") :: msgs) := by
  simp only [build_messages, Option.getD_some]
  rw [if_pos (show cfSubB "Crossfire" = true from rfl), h]

lemma generate_crossfire_ok (x : DebateState) (p f : Except String String)
    (msgs : List Msg) (h : crossfire_messages x.transcript = .ok msgs) :
    ∃ text, generate_ai_speech x "Crossfire" p f = (.ok text, x) :=
  generate_ai_speech_ok_of_build x "Crossfire" p f _
    (build_messages_crossfire x msgs h)

/-- Advancing the phase re-establishes the invariant from its
transcript/speaker/role components alone (the speaker-before-crossfire
component is recomputed, so it is not needed). -/
lemma StateINV_advance_parts (s : DebateState)
    (ha : cfAlternationB s.transcript = true)
    (hb : lastEntryCFAI s.transcript = true)
    (hd : s.current_speaker = "user" ∨ s.current_speaker = "ai")
    (hf : (s.user_role = "pro" ∧ s.phase_order = pro_phase_order) ∨
          (s.user_role ≠ "pro" ∧ s.phase_order = con_phase_order)) :
    StateINV s.advance_phase := by
  obtain ⟨hft, hfo, hfu, hfa⟩ := advance_phase_frame s
  obtain ⟨sA, sB, sC⟩ := advance_phase_spec s hf
  refine ⟨by rw [hft]; exact ha, by rw [hft]; exact hb, sB, ?_, ?_⟩
  · rcases sA with h | h | h
    · rw [h]; exact hd
    · exact Or.inl h
    · exact Or.inr h
  · rw [hfu, hfo]
    exact hf

/-- Advancing the phase preserves the invariant. -/
lemma StateINV_advance (s : DebateState) (hinv : StateINV s) :
    StateINV s.advance_phase :=
  StateINV_advance_parts s hinv.1 hinv.2.1 hinv.2.2.2.1 hinv.2.2.2.2

/-- Logging an AI speech preserves the invariant provided the new entry is
not a crossfire entry, or the transcript does not end in a crossfire
entry. -/
lemma StateINV_log_ai_any (x : DebateState) (ty2 text : String)
    (hinv : StateINV x) (_hspk : x.current_speaker = "ai")
    (hsafe : (pyToLower ty2 == "crossfire") = false ∨
      (∀ a, x.transcript.getLast? = some a → isCFEntry a = false)) :
    StateINV (x.log_speech "ai" x.ai_role ty2 text) := by
  obtain ⟨ha, hb, hc, hd, hf⟩ := hinv
  refine ⟨?_, ?_, ?_, ?_, ?_⟩
  · show cfAlternationB (x.transcript
      ++ [Entry.mk "ai" (pyCapitalize x.ai_role) ty2 text]) = true
    rcases hsafe with hncf | hlast
    · exact cfAlternationB_append_nonCF _ _ ha hncf
    · exact cfAlternationB_append _ _ ha
        (fun a hla => cfAdjOK_of_fst_not_cf _ _ (hlast a hla))
  · show lastEntryCFAI (x.transcript
      ++ [Entry.mk "ai" (pyCapitalize x.ai_role) ty2 text]) = true
    exact lastEntryCFAI_append_ai _ _ rfl
  · intro hu
    exact hc hu
  · exact hd
  · exact hf

/-- The state after the crossfire exchange: the human crossfire entry was
appended and the AI's crossfire answer is appended to it, with the speaker
set to "ai".  The invariant holds whatever the phase now is. -/
lemma StateINV_crossfire_tail (s x : DebateState) (E1 : Entry) (text : String)
    (ha : cfAlternationB s.transcript = true)
    (hb : lastEntryCFAI s.transcript = true)
    (hf : (s.user_role = "pro" ∧ s.phase_order = pro_phase_order) ∨
          (s.user_role ≠ "pro" ∧ s.phase_order = con_phase_order))
    (hxt : x.transcript = s.transcript ++ [E1])
    (hxu : x.user_role = s.user_role)
    (hxo : x.phase_order = s.phase_order)
    (hxs : x.current_speaker = "ai")
    (hE1 : E1.speaker = "user") :
    StateINV (x.log_speech "ai" x.ai_role "Crossfire" text) := by
  refine ⟨?_, ?_, ?_, ?_, ?_⟩
  · show cfAlternationB (x.transcript
      ++ [Entry.mk "ai" (pyCapitalize x.ai_role) "Crossfire" text]) = true
    rw [hxt]
    refine cfAlternationB_append _ _
      (cfAlternationB_append_user _ _ ha hb hE1) ?_
    intro a hlast
    rw [List.getLast?_concat] at hlast
    obtain rfl : E1 = a := Option.some.inj hlast
    refine cfAdjOK_of_speakers_ne _ _ ?_
    rw [hE1]
    rfl
  · show lastEntryCFAI (x.transcript
      ++ [Entry.mk "ai" (pyCapitalize x.ai_role) "Crossfire" text]) = true
    exact lastEntryCFAI_append_ai _ _ rfl
  · intro hu
    have hu2 : x.current_speaker = "user" := hu
    rw [hxs] at hu2
    exact absurd hu2 (by decide)
  · exact Or.inr hxs
  · have hgoal := hf
    rw [← hxu, ← hxo] at hgoal
    exact hgoal

/-- An AI turn preserves the invariant: the state is unchanged when the
generation raises, and the appended entry must keep the invariant when it
returns text. -/
lemma StateINV_ai_turn_step (x : DebateState) (ty2 : String)
    (p f : Except String String)
    (hok : StateINV x)
    (hlog : ∀ text, StateINV (x.log_speech "ai" x.ai_role ty2 text)) :
    StateINV (ai_turn_step x ty2 p f).1 := by
  have hsnd := generate_ai_speech_snd x ty2 p f
  unfold ai_turn_step
  rcases hg : generate_ai_speech x ty2 p f with ⟨r, x'⟩
  rw [hg] at hsnd
  have hx : x' = x := hsnd
  subst hx
  cases r with
  | ok t => exact hlog t
  | error e => exact hok

/-- As above, when the generation provably cannot raise. -/
lemma StateINV_ai_turn_step_noerr (x : DebateState) (ty2 : String)
    (p f : Except String String)
    (hnoerr : ∀ er x', generate_ai_speech x ty2 p f ≠ (.error er, x'))
    (hlog : ∀ text, StateINV (x.log_speech "ai" x.ai_role ty2 text)) :
    StateINV (ai_turn_step x ty2 p f).1 := by
  have hsnd := generate_ai_speech_snd x ty2 p f
  unfold ai_turn_step
  rcases hg : generate_ai_speech x ty2 p f with ⟨r, x'⟩
  rw [hg] at hsnd
  cases r with
  | ok t =>
    have hx : x' = x := hsnd
    subst hx
    exact hlog t
  | error e => exact absurd hg (hnoerr e x')

/-- A crossfire generation over a transcript ending in a crossfire entry
never raises. -/
lemma generate_crossfire_noerr (x : DebateState) (p f : Except String String)
    (t : List Entry) (e : Entry) (hx : x.transcript = t ++ [e])
    (hcf : cfSubB e.speech_type = true) :
    ∀ er x', generate_ai_speech x "Crossfire" p f ≠ (.error er, x') := by
  intro er x' hcontra
  obtain ⟨msgs, hcm⟩ := crossfire_messages_append_ok t e hcf
  rw [← hx] at hcm
  obtain ⟨text, hgen⟩ := generate_crossfire_ok x p f msgs hcm
  rw [hgen] at hcontra
  simp at hcontra

/-- The invariant holds of every fresh session. -/
lemma StateINV_init (res role diff mode : String) :
    StateINV (DebateState.init res role diff mode) := by
  by_cases h : pyToLower role = "pro"
  · have hord : (DebateState.init res role diff mode).phase_order
        = pro_phase_order := by
      simp only [DebateState.init, h, reduceIte]
    have hcp : (DebateState.init res role diff mode).current_phase
        = DebatePhase.PRO_CONSTRUCTIVE := by
      simp only [DebateState.init, h, reduceIte]
      rfl
    have hsp : (DebateState.init res role diff mode).current_speaker
        = "user" := by
      simp only [DebateState.init, h, reduceIte]
      rfl
    refine ⟨rfl, rfl, fun _ => ?_, Or.inl hsp, Or.inl ⟨h, hord⟩⟩
    rw [hord, hcp]
    rfl
  · by_cases hcon : pyToLower role = "con"
    · have hord : (DebateState.init res role diff mode).phase_order
          = con_phase_order := by
        simp only [DebateState.init, h, reduceIte]
      have hcp : (DebateState.init res role diff mode).current_phase
          = DebatePhase.CON_CONSTRUCTIVE := by
        simp only [DebateState.init, h, reduceIte]
        rfl
      have hsp : (DebateState.init res role diff mode).current_speaker
          = "user" := by
        simp only [DebateState.init, h, hcon, reduceIte]
        rfl
      refine ⟨rfl, rfl, fun _ => ?_, Or.inl hsp, Or.inr ⟨h, hord⟩⟩
      rw [hord, hcp]
      rfl
    · have hord : (DebateState.init res role diff mode).phase_order
          = con_phase_order := by
        simp only [DebateState.init, h, reduceIte]
      have hcp : (DebateState.init res role diff mode).current_phase
          = DebatePhase.CON_CONSTRUCTIVE := by
        simp only [DebateState.init, h, reduceIte]
        rfl
      have hsp : (DebateState.init res role diff mode).current_speaker
          = "ai" := by
        simp only [DebateState.init, h, reduceIte]
        rw [if_neg]
        intro hcontra
        have h2 : some "con" = some (pyToLower role) := hcontra
        exact hcon (Option.some.inj h2).symm
      refine ⟨rfl, rfl, fun hu => ?_, Or.inr hsp, Or.inr ⟨h, hord⟩⟩
      exfalso
      rw [hsp] at hu
      exact absurd hu (by decide)

set_option maxHeartbeats 4000000 in
/-- One coordinator iteration preserves the invariant, provided a crossfire
speech event carries the human speaker tag. -/
lemma StateINV_step (s : DebateState) (ev : Event)
    (p f : Except String String) (pj fj : Except String Jsonish)
    (hinv : StateINV s) (hev : GoodEv ev) :
    StateINV (debate_socket_step s ev p f pj fj).1 := by
  cases ev with
  | other t => exact hinv
  | end_phase =>
    simp only [debate_socket_step]
    by_cases hffc : s.current_phase = DebatePhase.FINAL_FOCUS_CON
    · rw [if_pos hffc]
      cases pj <;> cases fj <;> exact StateINV_advance s hinv
    · rw [if_neg hffc]
      have hinv1 : StateINV s.advance_phase := StateINV_advance s hinv
      by_cases hait : s.advance_phase.is_ai_turn = true
      · rw [if_pos hait]
        have hspk1 : s.advance_phase.current_speaker = "ai" := by
          have hh : (s.advance_phase.current_speaker == "ai") = true := hait
          exact eq_of_beq hh
        by_cases hcf1 : phase_is_crossfire s.advance_phase.current_phase = true
        · exfalso
          obtain ⟨ha, hb, hc, hd, hf⟩ := hinv
          obtain ⟨sA, sB, sC⟩ := advance_phase_spec s hf
          obtain ⟨-, hsucc, hflip⟩ := sC hcf1
          have hcsne : ¬ s.current_speaker = "ai" := hflip hspk1
          have hcsu : s.current_speaker = "user" := by
            rcases hd with h | h
            · exact h
            · exact absurd h hcsne
          rw [hc hcsu] at hsucc
          exact Bool.noConfusion hsucc
        · have hncf : phase_is_crossfire s.advance_phase.current_phase
              = false := by
            cases hx : phase_is_crossfire s.advance_phase.current_phase
            · rfl
            · exact absurd hx hcf1
          obtain ⟨-, hcf3⟩ := expected_speech_type_not_cf s.advance_phase hncf
          exact StateINV_ai_turn_step s.advance_phase _ p f hinv1
            (fun text => StateINV_log_ai_any s.advance_phase _ text hinv1
              hspk1 (Or.inl hcf3))
      · rw [if_neg hait]
        exact hinv1
  | speech speaker role ty content =>
    simp only [debate_socket_step]
    cases hmap : map_speech_type_to_phase (pyToLower ty) (pyToLower role)
        s.transcript with
    | none =>
      simp only [hmap]
      exact hinv
    | some np =>
      simp only [hmap]
      obtain ⟨ha, hb, hc, hd, hf⟩ := hinv
      by_cases hcfty : pyToLower ty = "crossfire"
      · rw [if_pos hcfty]
        have hspkv : speaker = "user" := hev hcfty
        subst hspkv
        have hsub : cfSubB ty = true := by
          unfold cfSubB
          rw [hcfty]
          rfl
        rw [if_pos (show (("user" : String) == "user") = true from rfl)]
        by_cases hph : (s.log_speech "user" role ty content).current_phase ≠ np
        · rw [if_pos hph]
          split
          · refine StateINV_ai_turn_step_noerr _ _ p f
              (generate_crossfire_noerr _ p f s.transcript
                (Entry.mk "user" (pyCapitalize role) ty content) rfl hsub)
              (fun text => StateINV_crossfire_tail s _
                (Entry.mk "user" (pyCapitalize role) ty content) text
                ha hb hf rfl rfl rfl rfl rfl)
          · next hna =>
            exact absurd rfl hna
        · rw [if_neg hph]
          split
          · refine StateINV_ai_turn_step_noerr _ _ p f
              (generate_crossfire_noerr _ p f s.transcript
                (Entry.mk "user" (pyCapitalize role) ty content) rfl hsub)
              (fun text => StateINV_crossfire_tail s _
                (Entry.mk "user" (pyCapitalize role) ty content) text
                ha hb hf rfl rfl rfl rfl rfl)
          · next hna =>
            exact absurd rfl hna
      · rw [if_neg hcfty]
        have hE1ncf : (pyToLower ty == "crossfire") = false := by
          cases hb2 : (pyToLower ty == "crossfire")
          · rfl
          · exact absurd (eq_of_beq hb2) hcfty
        have ha2 : cfAlternationB
            ({ s.log_speech speaker role ty content with
                current_phase := np }).transcript = true :=
          cfAlternationB_append_nonCF _ _ ha hE1ncf
        have hb2 : lastEntryCFAI
            ({ s.log_speech speaker role ty content with
                current_phase := np }).transcript = true :=
          lastEntryCFAI_append_noncf _ _ hE1ncf
        have hinv3 : StateINV ({ s.log_speech speaker role ty content with
            current_phase := np }).advance_phase :=
          StateINV_advance_parts _ ha2 hb2 hd hf
        split
        · next hait3 =>
          have hspk3 : ({ s.log_speech speaker role ty content with
              current_phase := np }).advance_phase.current_speaker = "ai" := by
            have hh : (({ s.log_speech speaker role ty content with
                current_phase := np }).advance_phase.current_speaker == "ai")
                = true := hait3
            exact eq_of_beq hh
          refine StateINV_ai_turn_step _ _ p f hinv3 (fun text =>
            StateINV_log_ai_any _ _ text hinv3 hspk3 (Or.inr ?_))
          intro a hla
          have hla2 : (({ s.log_speech speaker role ty content with
              current_phase := np } : DebateState).advance_phase).transcript.getLast?
              = some a := hla
          rw [(advance_phase_frame _).1] at hla2
          have hla3 : (s.transcript
              ++ [Entry.mk speaker (pyCapitalize role) ty content]).getLast?
              = some a := hla2
          rw [List.getLast?_concat] at hla3
          obtain rfl : Entry.mk speaker (pyCapitalize role) ty content = a :=
            Option.some.inj hla3
          exact hE1ncf
        · next hait3 =>
          exact hinv3

/-- What C3 claims: in every session state reachable through the
coordinator's turn handling, adjacent Crossfire transcript entries have
different speakers. -/
def C3_claim : Prop :=
  ∀ s : DebateState, Reachable s → cfAlternationB s.transcript = true

/-- C3 counterexample: the coordinator trusts the client-supplied speaker
tag.  Submitting the same crossfire turn twice with speaker "ai" logs two
adjacent crossfire entries with the same speaker (the handler flips
`current_speaker` to "user" each time, so the AI never replies in
between). -/
theorem C3_crossfire_alternation_cex : ¬ C3_claim := by
  intro h
  have h2 := h _ (Reachable.next _ (.speech "ai" "pro" "crossfire" "q2")
    (.error "e") (.error "e") (.error "e") (.error "e")
    (Reachable.next _ (.speech "ai" "pro" "crossfire" "q1")
      (.error "e") (.error "e") (.error "e") (.error "e")
      (Reachable.start "r" "pro" "beginner" "user-vs-ai")))
  exact absurd h2 (by decide)

/-- C3 (amended): in every session state reachable through the
coordinator's turn handling in which every submitted crossfire speech
event carries speaker "user" (the human), adjacent Crossfire transcript
entries have different speakers. -/
theorem C3_crossfire_alternation_amended (s : DebateState)
    (h : ReachableGood s) : cfAlternationB s.transcript = true := by
  have hinv : StateINV s := by
    induction h with
    | start res role diff mode => exact StateINV_init res role diff mode
    | next s ev p f pj fj hr hg ih => exact StateINV_step s ev p f pj fj ih hg
  exact hinv.1

/-- C3 witness: a fresh pro session after one human crossfire turn (and the
AI's generated reply) satisfies the alternation property. -/
theorem C3_crossfire_alternation_amended_witness :
    cfAlternationB ((debate_socket_step
      (DebateState.init "res" "pro" "beginner" "user-vs-ai")
      (.speech "user" "pro" "crossfire" "any questions")
      (.ok "crossfire answer") (.error "unused") (.error "unused")
      (.error "unused")).1).transcript = true :=
  C3_crossfire_alternation_amended _
    (ReachableGood.next _ _ _ _ _ _
      (ReachableGood.start "res" "pro" "beginner" "user-vs-ai")
      (fun _ => rfl))

end DebateSim
